import Mathlib

set_option maxHeartbeats 1000000

deriving instance DecidableEq for Except

/-!
Verification model of `update_database.py` (nss_risk_register).

The script is a single-pass batch job: it purges recent history, reads risk
rows from spreadsheet files, normalizes each row, performs a previous-rating
lookup against the history table, writes one Latest-Risks row per normalized
record, and appends the batch of normalized records to the history table
once per file.

Shallow embedding choices:
* a spreadsheet cell is modelled by `Cell` (string, integer, datetime, or
  Python `None`); numeric spreadsheet floats do not occur in the claims;
* dates are day numbers (`Int`); `datetime.date()` keeps the day number;
* Python code that can raise is `Except PyErr`-valued; the three exception
  classes caught by the script (AttributeError, ValueError, TypeError) are
  the `PyErr` constructors;
* the Access database is a pair of lists (`Full Risk History`, `Latest
  Risks`); `ORDER BY "Date Added" DESC` is modelled as a stable descending
  insertion sort (ties keep insertion order);
* SQL string equality is modelled as exact `String` equality.
-/

inductive PyErr where
  | attributeError
  | valueError
  | typeError
  deriving DecidableEq

inductive Cell where
  | str (s : String)
  | int (n : Int)
  | date (d : Int)
  | none
  deriving DecidableEq

/-- Value of a digit list, most significant first. -/
def digitsVal (cs : List Char) : Nat :=
  cs.foldl (fun a c => a * 10 + (c.toNat - 48)) 0

/-- Leading and trailing whitespace removed, over the character list. -/
def stripWs (cs : List Char) : List Char :=
  (((cs.dropWhile Char.isWhitespace).reverse).dropWhile Char.isWhitespace).reverse

/-- Modelled from Python's built-in `int(str)`: strip whitespace, optional
sign, then a nonempty run of decimal digits; anything else is a ValueError. -/
def parsePyInt (s : String) : Option Int :=
  match stripWs s.toList with
  | '-' :: rest =>
      if rest ≠ [] ∧ rest.all Char.isDigit then some (-(digitsVal rest : Int)) else Option.none
  | '+' :: rest =>
      if rest ≠ [] ∧ rest.all Char.isDigit then some ((digitsVal rest : Int)) else Option.none
  | rest =>
      if rest ≠ [] ∧ rest.all Char.isDigit then some ((digitsVal rest : Int)) else Option.none

/-- Modelled from Python's built-in `int(value)` on the cell types that occur:
integers convert to themselves, strings parse or raise ValueError, and
`None` / datetime values raise TypeError. -/
def pyToInt : Cell → Except PyErr Int
  | Cell.int n => Except.ok n
  | Cell.str s =>
      match parsePyInt s with
      | some n => Except.ok n
      | Option.none => Except.error PyErr.valueError
  | Cell.date _ => Except.error PyErr.typeError
  | Cell.none => Except.error PyErr.typeError

/-- Source `tint` (update_database.py lines 67-71): `int(val)` with only
`ValueError` caught and turned into the sentinel `-1`; every other
exception (in particular `TypeError`) propagates. -/
def tint (v : Cell) : Except PyErr Int :=
  match pyToInt v with
  | Except.ok n => Except.ok n
  | Except.error PyErr.valueError => Except.ok (-1)
  | Except.error e => Except.error e

/-- Source `tdate` (lines 74-78): the date part for datetime-typed cells,
Python `None` (modelled as `Option.none`) for everything else; total. -/
def tdate : Cell → Option Int
  | Cell.date d => some d
  | _ => Option.none

/-- ASCII upper-casing of a string, charwise (model of `str.upper`). -/
def upperStr (s : String) : String :=
  String.mk (s.toList.map Char.toUpper)

/-- Python `val.upper()`: only strings have the method; any other cell type
raises AttributeError. -/
def pyUpper : Cell → Except PyErr String
  | Cell.str s => Except.ok (upperStr s)
  | _ => Except.error PyErr.attributeError

/-- Characters removed by `RM_TABLE = str.maketrans(dict.fromkeys('aeiouAEIOU-_ '))`
(line 30). -/
def rmChars : List Char :=
  ['a', 'e', 'i', 'o', 'u', 'A', 'E', 'I', 'O', 'U', '-', '_', ' ']

/-- Source `.translate(RM_TABLE)`: drop every character of `rmChars`. -/
def rmTable (s : String) : String :=
  String.mk (s.toList.filter (fun c => decide (c ∉ rmChars)))

/-- Source lines 127-129: `inst = di[0].upper().translate(RM_TABLE)[:3]`,
with fallback `di[0].upper()[:3]` when fewer than 3 characters survive. -/
def instAbbrev (up : String) : String :=
  let inst := String.mk ((rmTable up).toList.take 3)
  if inst.length < 3 then String.mk (up.toList.take 3) else inst

/-- Python `f'{n:02}'` on an int: zero-pad single digits to width 2;
any other value (including negatives) prints as-is. -/
def pad02 (n : Int) : String :=
  if 0 ≤ n ∧ n < 10 then "0" ++ toString n else toString n

/-- Python `repr` of a list of ints, e.g. `[3, 5]`. -/
def pyReprIntList (l : List Int) : String :=
  "[" ++ String.intercalate ", " (l.map toString) ++ "]"

/-- One raw spreadsheet row: 25 positional cells as handed to `main`'s loop. -/
structure RawRow where
  c0 : Cell
  c1 : Cell
  c2 : Cell
  c3 : Cell
  c4 : Cell
  c5 : Cell
  c6 : Cell
  c7 : Cell
  c8 : Cell
  c9 : Cell
  c10 : Cell
  c11 : Cell
  c12 : Cell
  c13 : Cell
  c14 : Cell
  c15 : Cell
  c16 : Cell
  c17 : Cell
  c18 : Cell
  c19 : Cell
  c20 : Cell
  c21 : Cell
  c22 : Cell
  c23 : Cell
  c24 : Cell
  deriving DecidableEq

/-- Build a `RawRow` from a cell list (missing positions are `None`). -/
def mkRaw (l : List Cell) : RawRow :=
  { c0 := l.getD 0 Cell.none, c1 := l.getD 1 Cell.none, c2 := l.getD 2 Cell.none
    c3 := l.getD 3 Cell.none, c4 := l.getD 4 Cell.none, c5 := l.getD 5 Cell.none
    c6 := l.getD 6 Cell.none, c7 := l.getD 7 Cell.none, c8 := l.getD 8 Cell.none
    c9 := l.getD 9 Cell.none, c10 := l.getD 10 Cell.none, c11 := l.getD 11 Cell.none
    c12 := l.getD 12 Cell.none, c13 := l.getD 13 Cell.none, c14 := l.getD 14 Cell.none
    c15 := l.getD 15 Cell.none, c16 := l.getD 16 Cell.none, c17 := l.getD 17 Cell.none
    c18 := l.getD 18 Cell.none, c19 := l.getD 19 Cell.none, c20 := l.getD 20 Cell.none
    c21 := l.getD 21 Cell.none, c22 := l.getD 22 Cell.none, c23 := l.getD 23 Cell.none
    c24 := l.getD 24 Cell.none }

/-- Positional access `di[i]` for the fixed column indices used by the code. -/
def getCell (di : RawRow) (i : Nat) : Cell :=
  if i = 0 then di.c0 else if i = 1 then di.c1 else if i = 2 then di.c2
  else if i = 3 then di.c3 else if i = 4 then di.c4 else if i = 5 then di.c5
  else if i = 6 then di.c6 else if i = 7 then di.c7 else if i = 8 then di.c8
  else if i = 9 then di.c9 else if i = 10 then di.c10 else if i = 11 then di.c11
  else if i = 12 then di.c12 else if i = 13 then di.c13 else if i = 14 then di.c14
  else if i = 15 then di.c15 else if i = 16 then di.c16 else if i = 17 then di.c17
  else if i = 18 then di.c18 else if i = 19 then di.c19 else if i = 20 then di.c20
  else if i = 21 then di.c21 else if i = 22 then di.c22 else if i = 23 then di.c23
  else if i = 24 then di.c24 else Cell.none

/-- Truth of "this Except is an error" as a Bool. -/
def isErr {α : Type} : Except PyErr α → Bool
  | Except.error _ => true
  | Except.ok _ => false

/-- Column indices checked with `tint` by `check_row_entries` (line 87). -/
def intCheckCols : List Nat := [1, 17, 18, 19, 20, 21, 22, 24]

/-- Column indices checked with `tdate` by `check_row_entries` (line 92). -/
def dateCheckCols : List Nat := [14, 16]

/-- `tdate` wrapped in the exception monad: the function is total, so the
`except` clause of `check_row_entries`'s date loop can never fire. -/
def tdateExc (v : Cell) : Except PyErr (Option Int) :=
  Except.ok (tdate v)

/-- Source `check_row_entries` (lines 81-97): the list of problem columns it
reports (column 0 when `.upper()` raises, then each int-check column whose
`tint` raises, then each date-check column whose `tdate` raises - never). -/
def check_row_entries (di : RawRow) : List Nat :=
  (if isErr (pyUpper di.c0) then [0] else [])
    ++ intCheckCols.filter (fun i => isErr (tint (getCell di i)))
    ++ dateCheckCols.filter (fun i => isErr (tdateExc (getCell di i)))

/-- One row of `Full Risk History`, mirroring the insert tuple built at
lines 130-134 (positions 0-20 of `row`). -/
structure HistRow where
  dateAdded : Int
  project : String
  riskId : Int
  globalId : String
  title : Cell
  descr : Cell
  owner : Cell
  partner : Cell
  status : Cell
  treatment : Cell
  notes : Cell
  lastReviewed : Option Int
  planned : Cell
  actionDue : Option Int
  whenScore : Int
  cost : Int
  schedule : Int
  quality : Int
  maxImpact : Int
  likelihood : Int
  rating : Int
  deriving DecidableEq

/-- One row of `Latest Risks`: `row[1:]` plus `"Last Rating"` and the
serialized `"Full History"` (lines 152-163). -/
structure SnapRow where
  project : String
  riskId : Int
  globalId : String
  title : Cell
  descr : Cell
  owner : Cell
  partner : Cell
  status : Cell
  treatment : Cell
  notes : Cell
  lastReviewed : Option Int
  planned : Cell
  actionDue : Option Int
  whenScore : Int
  cost : Int
  schedule : Int
  quality : Int
  maxImpact : Int
  likelihood : Int
  rating : Int
  lastRating : Int
  fullHistory : String
  deriving DecidableEq

/-- Source lines 126-134: build the normalized record for one raw row. Any
AttributeError / ValueError / TypeError escaping a field expression is the
rejection of the whole row (the `except` clause at line 135). Python
evaluates `di[0].upper()` first (for `inst`), then the tuple fields left to
right; all three exception classes are handled identically, so the
propagated error value only reflects the first failing field. -/
def normalizeRow (nowDate : Int) (di : RawRow) : Except PyErr HistRow :=
  match pyUpper di.c0 with
  | Except.error e => Except.error e
  | Except.ok up =>
  match tint di.c1 with
  | Except.error e => Except.error e
  | Except.ok rid =>
  match tint di.c17 with
  | Except.error e => Except.error e
  | Except.ok w =>
  match tint di.c18 with
  | Except.error e => Except.error e
  | Except.ok co =>
  match tint di.c19 with
  | Except.error e => Except.error e
  | Except.ok sc =>
  match tint di.c20 with
  | Except.error e => Except.error e
  | Except.ok qu =>
  match tint di.c21 with
  | Except.error e => Except.error e
  | Except.ok mi =>
  match tint di.c22 with
  | Except.error e => Except.error e
  | Except.ok li =>
  match tint di.c24 with
  | Except.error e => Except.error e
  | Except.ok ra =>
    Except.ok
      { dateAdded := nowDate
        project := up
        riskId := rid
        globalId := instAbbrev up ++ "-" ++ pad02 rid
        title := di.c2
        descr := di.c3
        owner := di.c4
        partner := di.c5
        status := di.c6
        treatment := di.c7
        notes := di.c8
        lastReviewed := tdate di.c14
        planned := di.c15
        actionDue := tdate di.c16
        whenScore := w
        cost := co
        schedule := sc
        quality := qu
        maxImpact := mi
        likelihood := li
        rating := ra }

/-- The two persisted tables. -/
structure DB where
  history : List HistRow
  latest : List SnapRow
  deriving DecidableEq

/-- The SQL predicate `Project=? AND "Risk ID"=?` of the lookup query. -/
def matchKey (p : String) (rid : Int) (e : HistRow) : Bool :=
  decide (e.project = p ∧ e.riskId = rid)

/-- Stable insertion (descending by `dateAdded`): the new element goes in
front of the first entry whose date is not later, so equal dates keep
insertion order. -/
def insortDateDesc (h : HistRow) : List HistRow → List HistRow
  | [] => [h]
  | x :: xs =>
      if h.dateAdded < x.dateAdded then x :: insortDateDesc h xs else h :: x :: xs

/-- Model of `ORDER BY "Date Added" DESC`: stable descending sort. -/
def sortByDateDesc : List HistRow → List HistRow
  | [] => []
  | x :: xs => insortDateDesc x (sortByDateDesc xs)

/-- Source lines 144-147: ratings of all history entries for the identity,
most recent date first (`risk_history`). -/
def priorRatings (db : DB) (p : String) (rid : Int) : List Int :=
  (sortByDateDesc (db.history.filter (matchKey p rid))).map (fun e => e.rating)

/-- Source lines 148-151: `risk_history[0]`, or `-1` on IndexError. -/
def prevRating (db : DB) (p : String) (rid : Int) : Int :=
  (priorRatings db p rid).headD (-1)

/-- The `Latest Risks` insert tuple `row[1:] + (prev_rating, repr(risk_history))`. -/
def snapOf (r : HistRow) (prev : Int) (hist : String) : SnapRow :=
  { project := r.project, riskId := r.riskId, globalId := r.globalId
    title := r.title, descr := r.descr, owner := r.owner, partner := r.partner
    status := r.status, treatment := r.treatment, notes := r.notes
    lastReviewed := r.lastReviewed, planned := r.planned, actionDue := r.actionDue
    whenScore := r.whenScore, cost := r.cost, schedule := r.schedule
    quality := r.quality, maxImpact := r.maxImpact, likelihood := r.likelihood
    rating := r.rating, lastRating := prev, fullHistory := hist }

/-- Per-row loop state: current database, accumulated `insert_data`, and the
number of row-rejection warnings emitted so far. -/
abbrev RunSt := DB × List HistRow × Nat

/-- Source lines 125-163, one iteration of the per-row loop: a rejected row
leaves the database and `insert_data` untouched and emits one warning (plus
informational `check_row_entries` output); an accepted row is appended to
`insert_data`, the previous-rating lookup runs against the *current* history
table, and one `Latest Risks` row is inserted immediately. -/
def processRow (nowDate : Int) (st : RunSt) (di : RawRow) : RunSt :=
  match normalizeRow nowDate di with
  | Except.error _ => (st.1, st.2.1, st.2.2 + 1)
  | Except.ok row =>
      ({ st.1 with
          latest := st.1.latest ++
            [snapOf row (prevRating st.1 row.project row.riskId)
              (pyReprIntList (priorRatings st.1 row.project row.riskId))] },
        st.2.1 ++ [row], st.2.2)

/-- Source lines 120-175, one input file: run the per-row loop with an empty
`insert_data`, then append the accumulated batch to `Full Risk History` in
one `executemany` (so history grows only at end of file). -/
def processFile (nowDate : Int) (db : DB) (rows : List RawRow) : DB :=
  let st := rows.foldl (processRow nowDate) (db, [], 0)
  { st.1 with history := st.1.history ++ st.2.1 }

/-- Source lines 113-118: delete history entries with
`DateValue("Date Added") >= now - 14 days` (kept rows are exactly those
strictly older than the window) and empty `Latest Risks`. -/
def purgeDB (nowDate : Int) (db : DB) : DB :=
  { history := db.history.filter (fun e => decide (e.dateAdded < nowDate - 14))
    latest := [] }

/-- Source `main` (lines 100-176): purge, then process the discovered files
in order. -/
def runBatch (nowDate : Int) (files : List (List RawRow)) (db : DB) : DB :=
  files.foldl (processFile nowDate) (purgeDB nowDate db)

/-- Rows of one file that survive normalization, in order. -/
def normRows (nowDate : Int) (rows : List RawRow) : List HistRow :=
  rows.filterMap (fun di =>
    match normalizeRow nowDate di with
    | Except.ok r => some r
    | Except.error _ => Option.none)

/-- All normalized rows of a run, file order then row order. -/
def normFiles (nowDate : Int) : List (List RawRow) → List HistRow
  | [] => []
  | rows :: rest => normRows nowDate rows ++ normFiles nowDate rest

/-- Risk identity of a history row. -/
def rowKey (r : HistRow) : String × Int := (r.project, r.riskId)

/-- Risk identity of a snapshot row. -/
def snapKey (s : SnapRow) : String × Int := (s.project, s.riskId)

/-! ## Spec-side definitions (formalizations of the claims' wording) -/

/-- Cell types on which Python's `int()` cannot raise `TypeError` here:
actual integers and strings (strings either convert or raise `ValueError`,
which `tint` turns into the sentinel). -/
def intCoercible : Cell → Bool
  | Cell.str _ => true
  | Cell.int _ => true
  | _ => false

/-- Separator characters named by the spec's `global_id` description. -/
def specSeparators : List Char := ['-', '_', ' ']

/-- Vowel characters named by the spec's `global_id` description. -/
def specVowels : List Char := ['a', 'e', 'i', 'o', 'u', 'A', 'E', 'I', 'O', 'U']

/-- The `global_id` derivation as the spec words it: first 3 non-vowel,
non-separator characters of the upper-cased code, falling back to the first
3 characters of the upper-cased code when fewer than 3 survive, then `-`
and the 2-digit-padded risk id. -/
def globalIdSpec (code : String) (rid : Int) : String :=
  let upc := upperStr code
  let surviving := upc.toList.filter (fun c => decide (c ∉ specSeparators ∧ c ∉ specVowels))
  (if surviving.length < 3 then String.mk (upc.toList.take 3) else String.mk (surviving.take 3))
    ++ "-" ++ pad02 rid

/-- The checklist of columns enumerated by claim C10: institution code,
risk id, the six scoring fields, last-reviewed, action-due. -/
def claimChecklist : List Nat := [0, 1, 17, 18, 19, 20, 21, 22, 14, 16]

/-- Whether the coercion used by `check_row_entries` for column `i` raises. -/
def colCoercionRaises (di : RawRow) (i : Nat) : Bool :=
  if i = 0 then isErr (pyUpper di.c0)
  else if intCheckCols.contains i then isErr (tint (getCell di i))
  else if dateCheckCols.contains i then isErr (tdateExc (getCell di i))
  else false

/-! ## Helper lemmas -/

lemma tint_ok_of_intCoercible (v : Cell) (h : intCoercible v = true) :
    ∃ n : Int, tint v = Except.ok n := by
  cases v with
  | str s =>
      cases hp : parsePyInt s with
      | none => exact ⟨-1, by simp [tint, pyToInt, hp]⟩
      | some m => exact ⟨m, by simp [tint, pyToInt, hp]⟩
  | int n => exact ⟨n, rfl⟩
  | date d => simp [intCoercible] at h
  | none => simp [intCoercible] at h

/-- Full characterization of a successful row normalization: every field of
the produced record in terms of the source coercions. -/
lemma normalizeRow_ok_build (D : Int) (di : RawRow) (row : HistRow)
    (h : normalizeRow D di = Except.ok row) :
    row.dateAdded = D
    ∧ pyUpper di.c0 = Except.ok row.project
    ∧ tint di.c1 = Except.ok row.riskId
    ∧ row.globalId = instAbbrev row.project ++ "-" ++ pad02 row.riskId
    ∧ tint di.c17 = Except.ok row.whenScore
    ∧ tint di.c18 = Except.ok row.cost
    ∧ tint di.c19 = Except.ok row.schedule
    ∧ tint di.c20 = Except.ok row.quality
    ∧ tint di.c21 = Except.ok row.maxImpact
    ∧ tint di.c22 = Except.ok row.likelihood
    ∧ tint di.c24 = Except.ok row.rating
    ∧ row.lastReviewed = tdate di.c14
    ∧ row.actionDue = tdate di.c16 := by
  unfold normalizeRow at h
  repeat' split at h
  any_goals exact Except.noConfusion h
  injection h with hrow
  subst hrow
  refine ⟨rfl, ?_, ?_, rfl, ?_, ?_, ?_, ?_, ?_, ?_, ?_, rfl, rfl⟩ <;> assumption

/-- A failing institution-code cell fails `normalizeRow` with the same error. -/
lemma normalizeRow_err_of_upper (D : Int) (di : RawRow) (e : PyErr)
    (h : pyUpper di.c0 = Except.error e) :
    normalizeRow D di = Except.error e := by
  unfold normalizeRow
  rw [h]

/-! ## Concrete rows and databases used by witnesses and counterexamples -/

/-- Empty database. -/
def dbEmpty : DB := { history := [], latest := [] }

/-- A well-formed raw row: project "ABC", risk 7, scores 1, rating 3. -/
def rowABC : RawRow := mkRaw [Cell.str "ABC", Cell.int 7, Cell.none, Cell.none, Cell.none,
  Cell.none, Cell.none, Cell.none, Cell.none, Cell.none, Cell.none, Cell.none, Cell.none,
  Cell.none, Cell.none, Cell.none, Cell.none, Cell.int 1, Cell.int 1, Cell.int 1,
  Cell.int 1, Cell.int 1, Cell.int 1, Cell.none, Cell.int 3]

/-- The normalized record produced from `rowABC` at reference date 0. -/
def rowABCRec : HistRow :=
  { dateAdded := 0, project := "ABC", riskId := 7, globalId := "ABC-07"
    title := Cell.none, descr := Cell.none, owner := Cell.none, partner := Cell.none
    status := Cell.none, treatment := Cell.none, notes := Cell.none
    lastReviewed := Option.none, planned := Cell.none, actionDue := Option.none
    whenScore := 1, cost := 1, schedule := 1, quality := 1, maxImpact := 1
    likelihood := 1, rating := 3 }


/-- A history entry with the given date, identity and rating. -/
def histEntry (d : Int) (p : String) (rid : Int) (ra : Int) : HistRow :=
  { dateAdded := d, project := p, riskId := rid, globalId := p
    title := Cell.none, descr := Cell.none, owner := Cell.none, partner := Cell.none
    status := Cell.none, treatment := Cell.none, notes := Cell.none
    lastReviewed := Option.none, planned := Cell.none, actionDue := Option.none
    whenScore := 1, cost := 1, schedule := 1, quality := 1, maxImpact := 1
    likelihood := 1, rating := ra }

/-- Row whose institution code is fine but whose risk-id cell is `None`. -/
def c4di : RawRow := mkRaw [Cell.str "ABC", Cell.none, Cell.none, Cell.none, Cell.none,
  Cell.none, Cell.none, Cell.none, Cell.none, Cell.none, Cell.none, Cell.none, Cell.none,
  Cell.none, Cell.none, Cell.none, Cell.none, Cell.int 1, Cell.int 1, Cell.int 1,
  Cell.int 1, Cell.int 1, Cell.int 1, Cell.none, Cell.int 3]

/-- Row with a text scoring cell (`"N/A"`), everything else well-formed. -/
def c4wdi : RawRow := mkRaw [Cell.str "ABC", Cell.int 7, Cell.none, Cell.none, Cell.none,
  Cell.none, Cell.none, Cell.none, Cell.none, Cell.none, Cell.none, Cell.none, Cell.none,
  Cell.none, Cell.none, Cell.none, Cell.none, Cell.str "N/A", Cell.int 1, Cell.int 1,
  Cell.int 1, Cell.int 1, Cell.int 1, Cell.none, Cell.int 3]

/-! ## C3: total int coercion -/

/-- Claim C3 counterexample: `tint` does raise on a `None` cell - `int(None)`
raises `TypeError`, which `tint` does not catch (it only catches
`ValueError`), so the claim "never raises for any type" is false. -/
theorem c3_counterexample : tint Cell.none = Except.error PyErr.typeError := rfl

/-- Claim C3 (amended): `tint` never raises and returns the converted
integer or the sentinel `-1` exactly for integer-typed and string-typed
cells; for `None` and other non-int-convertible cell types it raises
`TypeError` (which the caller's row-level handler then catches). -/
theorem c3_tint_characterization (v : Cell) :
    ((∃ n : Int, tint v = Except.ok n) ↔ intCoercible v = true)
    ∧ ((∃ e : PyErr, tint v = Except.error e) ↔ intCoercible v = false) := by
  cases v with
  | str s =>
      cases hp : parsePyInt s with
      | none => simp [tint, pyToInt, hp, intCoercible]
      | some m => simp [tint, pyToInt, hp, intCoercible]
  | int n => simp [tint, pyToInt, intCoercible]
  | date d => simp [tint, pyToInt, intCoercible]
  | none => simp [tint, pyToInt, intCoercible]

/-! ## C8: identity-field failure rejects the row atomically -/

/-- Claim C8: a row whose institution-code cell does not support
upper-casing is rejected atomically - the database (both tables) and the
pending history batch are unchanged, exactly one warning diagnostic is
emitted, and the loop goes on with the next row (the fold continues). -/
theorem c8_identity_reject (D : Int) (db : DB) (acc : List HistRow) (n : Nat)
    (di : RawRow) (e : PyErr) (h : pyUpper di.c0 = Except.error e) :
    processRow D (db, acc, n) di = (db, acc, n + 1) := by
  have hnorm : normalizeRow D di = Except.error e := normalizeRow_err_of_upper D di e h
  simp [processRow, hnorm]

/-- Witness for C8 at a concrete input: a row whose institution-code cell
is `None`. -/
theorem c8_identity_reject_witness :
    pyUpper (mkRaw []).c0 = Except.error PyErr.attributeError
    ∧ processRow 0 (dbEmpty, [], 0) (mkRaw []) = (dbEmpty, [], 1) :=
  ⟨rfl, c8_identity_reject 0 dbEmpty [] 0 (mkRaw []) PyErr.attributeError rfl⟩

/-! ## C4: field-level coercion failures and row rejection -/

/-- Claim C4 counterexample: institution code is a fine string (`"ABC"`),
the risk-id cell is `None` - an int-field coercion failure - yet the row is
rejected (no record produced, nothing inserted, one warning), because
`int(None)` raises `TypeError`, which escapes `tint` and trips the
row-level handler. -/
theorem c4_counterexample :
    pyUpper c4di.c0 = Except.ok "ABC"
    ∧ normalizeRow 0 c4di = Except.error PyErr.typeError
    ∧ processRow 0 (dbEmpty, [], 0) c4di = (dbEmpty, [], 1) := by
  refine ⟨by decide, by decide, by decide⟩

/-- Claim C4 (amended): for a row whose institution-code cell upper-cases,
int-field cells that are integers or strings never reject the row - a
non-numeric string degrades to the sentinel `-1` inside `tint` - and date
fields always degrade to the absent value; the row is produced, appended to
the pending history batch, and one Latest-Risks row is inserted. (Int-field
cells of non-convertible type - `None`, datetime - raise `TypeError` and do
reject the row, as `c4_counterexample` shows.) -/
theorem c4_soft_fields (D : Int) (db : DB) (acc : List HistRow) (n : Nat)
    (di : RawRow) (s : String) (h0 : di.c0 = Cell.str s)
    (h1 : intCoercible di.c1 = true) (h17 : intCoercible di.c17 = true)
    (h18 : intCoercible di.c18 = true) (h19 : intCoercible di.c19 = true)
    (h20 : intCoercible di.c20 = true) (h21 : intCoercible di.c21 = true)
    (h22 : intCoercible di.c22 = true) (h24 : intCoercible di.c24 = true) :
    ∃ row : HistRow, normalizeRow D di = Except.ok row
      ∧ processRow D (db, acc, n) di
          = ({ db with latest := db.latest ++
                [snapOf row (prevRating db row.project row.riskId)
                  (pyReprIntList (priorRatings db row.project row.riskId))] },
             acc ++ [row], n)
      ∧ tint di.c1 = Except.ok row.riskId
      ∧ tint di.c17 = Except.ok row.whenScore
      ∧ tint di.c18 = Except.ok row.cost
      ∧ tint di.c19 = Except.ok row.schedule
      ∧ tint di.c20 = Except.ok row.quality
      ∧ tint di.c21 = Except.ok row.maxImpact
      ∧ tint di.c22 = Except.ok row.likelihood
      ∧ tint di.c24 = Except.ok row.rating
      ∧ row.lastReviewed = tdate di.c14
      ∧ row.actionDue = tdate di.c16 := by
  obtain ⟨n1, e1⟩ := tint_ok_of_intCoercible _ h1
  obtain ⟨n17, e17⟩ := tint_ok_of_intCoercible _ h17
  obtain ⟨n18, e18⟩ := tint_ok_of_intCoercible _ h18
  obtain ⟨n19, e19⟩ := tint_ok_of_intCoercible _ h19
  obtain ⟨n20, e20⟩ := tint_ok_of_intCoercible _ h20
  obtain ⟨n21, e21⟩ := tint_ok_of_intCoercible _ h21
  obtain ⟨n22, e22⟩ := tint_ok_of_intCoercible _ h22
  obtain ⟨n24, e24⟩ := tint_ok_of_intCoercible _ h24
  have hnorm : normalizeRow D di = Except.ok
      { dateAdded := D, project := upperStr s, riskId := n1
        globalId := instAbbrev (upperStr s) ++ "-" ++ pad02 n1
        title := di.c2, descr := di.c3, owner := di.c4, partner := di.c5
        status := di.c6, treatment := di.c7, notes := di.c8
        lastReviewed := tdate di.c14, planned := di.c15, actionDue := tdate di.c16
        whenScore := n17, cost := n18, schedule := n19, quality := n20
        maxImpact := n21, likelihood := n22, rating := n24 } := by
    unfold normalizeRow
    rw [h0]
    simp [pyUpper, e1, e17, e18, e19, e20, e21, e22, e24]
  exact ⟨_, hnorm, by simp [processRow, hnorm], e1, e17, e18, e19, e20, e21, e22, e24,
    rfl, rfl⟩

/-- Witness for the amended C4 at a concrete input: scoring cell 17 holds
the text `"N/A"`, which degrades to `-1`; the row is still inserted. -/
theorem c4_soft_fields_witness :
    (∃ row : HistRow, normalizeRow 0 c4wdi = Except.ok row
      ∧ processRow 0 (dbEmpty, [], 0) c4wdi
          = ({ dbEmpty with latest := dbEmpty.latest ++
                [snapOf row (prevRating dbEmpty row.project row.riskId)
                  (pyReprIntList (priorRatings dbEmpty row.project row.riskId))] },
             [] ++ [row], 0)
      ∧ tint c4wdi.c1 = Except.ok row.riskId
      ∧ tint c4wdi.c17 = Except.ok row.whenScore
      ∧ tint c4wdi.c18 = Except.ok row.cost
      ∧ tint c4wdi.c19 = Except.ok row.schedule
      ∧ tint c4wdi.c20 = Except.ok row.quality
      ∧ tint c4wdi.c21 = Except.ok row.maxImpact
      ∧ tint c4wdi.c22 = Except.ok row.likelihood
      ∧ tint c4wdi.c24 = Except.ok row.rating
      ∧ row.lastReviewed = tdate c4wdi.c14
      ∧ row.actionDue = tdate c4wdi.c16)
    ∧ tint c4wdi.c17 = Except.ok (-1) :=
  ⟨c4_soft_fields 0 dbEmpty [] 0 c4wdi "ABC" rfl rfl rfl rfl rfl rfl rfl rfl rfl,
    by decide⟩

/-! ## C5: global identifier derivation -/

lemma rm_mem_split (c : Char) :
    (c ∉ rmChars) ↔ (c ∉ specSeparators ∧ c ∉ specVowels) := by
  simp [rmChars, specSeparators, specVowels]
  tauto

lemma take3_length_lt (l : List Char) : ((l.take 3).length < 3) ↔ (l.length < 3) := by
  simp [List.length_take]

lemma toList_mk (l : List Char) : (String.mk l).toList = l := rfl

lemma length_mk (l : List Char) : (String.mk l).length = l.length := rfl

/-- The source's abbreviation computation agrees with the spec's wording. -/
lemma instAbbrev_eq_spec (up : String) :
    instAbbrev up
      = (if (up.toList.filter (fun c => decide (c ∉ specSeparators ∧ c ∉ specVowels))).length < 3
          then String.mk (up.toList.take 3)
          else String.mk ((up.toList.filter
            (fun c => decide (c ∉ specSeparators ∧ c ∉ specVowels))).take 3)) := by
  have hf : up.toList.filter (fun c => decide (c ∉ rmChars))
      = up.toList.filter (fun c => decide (c ∉ specSeparators ∧ c ∉ specVowels)) := by
    apply List.filter_congr
    intro c _
    rw [decide_eq_decide]
    exact rm_mem_split c
  unfold instAbbrev rmTable
  simp only [toList_mk, length_mk, hf]
  by_cases hlt : (up.toList.filter
      (fun c => decide (c ∉ specSeparators ∧ c ∉ specVowels))).length < 3
  · rw [if_pos ((take3_length_lt _).mpr hlt), if_pos hlt]
  · rw [if_neg (fun hc => hlt ((take3_length_lt _).mp hc)), if_neg hlt]

/-- Claim C5: for every row whose institution-code cell is a string, the
produced record's global id is exactly the spec's derivation - first 3
non-vowel, non-separator characters of the upper-cased code (falling back
to the first 3 upper-cased characters when fewer than 3 survive), a dash,
and the 2-digit zero-padded coerced risk number. The right-hand side is a
pure function of the (code, risk number) pair, so the derivation is
deterministic across runs. -/
theorem c5_global_id (D : Int) (di : RawRow) (s : String) (row : HistRow)
    (h0 : di.c0 = Cell.str s) (h : normalizeRow D di = Except.ok row) :
    row.globalId = globalIdSpec s row.riskId
    ∧ tint di.c1 = Except.ok row.riskId := by
  obtain ⟨-, hup, hrid, hgid, -⟩ := normalizeRow_ok_build D di row h
  rw [h0] at hup
  simp only [pyUpper, Except.ok.injEq] at hup
  refine ⟨?_, hrid⟩
  rw [hgid, ← hup, instAbbrev_eq_spec]
  rfl

/-- Witness for C5 at a concrete input: code "ABC" (two vowels survive
filtering, so the fallback fires), risk number 7, yielding "ABC-07". -/
theorem c5_global_id_witness :
    rowABCRec.globalId = globalIdSpec "ABC" rowABCRec.riskId
    ∧ tint rowABC.c1 = Except.ok rowABCRec.riskId :=
  c5_global_id 0 rowABC "ABC" rowABCRec rfl (by decide)

/-! ## C10: rejection diagnostic -/

/-- Claim C10: for each column of the claim's checklist (institution code,
risk id, the six scoring fields, last-reviewed, action-due), the column
index appears in the problem list reported by `check_row_entries` exactly
when the coercion applied to that cell raises; and the diagnostic changes
no state - a rejected row always leaves the database and pending batch
untouched and only bumps the warning count, whatever the problem list
contains. (The code additionally checks the rating column 24, which the
claim's checklist does not name.) Column 0's coercion is `.upper()`, the
int columns' coercion is `tint` - which raises only `TypeError`, so a
non-numeric string degrades to `-1` silently and is not reported - and the
date columns' coercion `tdate` is total, so 14 and 16 are never reported. -/
theorem c10_diagnostic (di : RawRow) :
    (∀ i ∈ claimChecklist, (i ∈ check_row_entries di ↔ colCoercionRaises di i = true))
    ∧ (∀ (D : Int) (db : DB) (acc : List HistRow) (n : Nat) (e : PyErr),
        normalizeRow D di = Except.error e → processRow D (db, acc, n) di = (db, acc, n + 1)) := by
  constructor
  · intro i hi
    simp only [claimChecklist, List.mem_cons, List.not_mem_nil, or_false] at hi
    rcases hi with rfl | rfl | rfl | rfl | rfl | rfl | rfl | rfl | rfl | rfl <;>
      cases hb0 : isErr (pyUpper di.c0) <;>
        simp [check_row_entries, colCoercionRaises, intCheckCols, dateCheckCols,
          getCell, tdateExc, isErr, hb0]
  · intro D db acc n e he
    simp [processRow, he]

/-- Witness for C10 at a concrete input: the all-`None` row - column 0 is
reported (no `.upper()`), and the rejection leaves all state unchanged. -/
theorem c10_diagnostic_witness :
    (0 ∈ check_row_entries (mkRaw []) ↔ colCoercionRaises (mkRaw []) 0 = true)
    ∧ processRow 0 (dbEmpty, [], 0) (mkRaw []) = (dbEmpty, [], 1) :=
  ⟨(c10_diagnostic (mkRaw [])).1 0 (by decide),
    (c10_diagnostic (mkRaw [])).2 0 dbEmpty [] 0 PyErr.attributeError (by decide)⟩

/-! ## Sorting lemmas for the previous-rating lookup -/

/-- Relation "a was recorded no earlier than b". -/
def dateGE (a b : HistRow) : Prop := b.dateAdded ≤ a.dateAdded

lemma mem_insortDateDesc (a h : HistRow) (l : List HistRow) :
    a ∈ insortDateDesc h l ↔ a = h ∨ a ∈ l := by
  induction l with
  | nil => simp [insortDateDesc]
  | cons x xs ih =>
      simp only [insortDateDesc]
      split
      · simp only [List.mem_cons, ih]
        tauto
      · simp only [List.mem_cons]

lemma mem_sortByDateDesc (a : HistRow) (l : List HistRow) :
    a ∈ sortByDateDesc l ↔ a ∈ l := by
  induction l with
  | nil => simp [sortByDateDesc]
  | cons x xs ih => simp [sortByDateDesc, mem_insortDateDesc, ih]

lemma pairwise_insortDateDesc (h : HistRow) (l : List HistRow)
    (hl : l.Pairwise dateGE) : (insortDateDesc h l).Pairwise dateGE := by
  induction l with
  | nil => simp [insortDateDesc]
  | cons x xs ih =>
      rcases List.pairwise_cons.mp hl with ⟨hx, hxs⟩
      simp only [insortDateDesc]
      split
      · rename_i hlt
        refine List.pairwise_cons.mpr ⟨?_, ih hxs⟩
        intro b hb
        rcases (mem_insortDateDesc b h xs).mp hb with rfl | hbm
        · exact le_of_lt hlt
        · exact hx b hbm
      · rename_i hnlt
        refine List.pairwise_cons.mpr ⟨?_, hl⟩
        intro b hb
        rcases List.mem_cons.mp hb with rfl | hbm
        · exact le_of_not_lt hnlt
        · exact le_trans (hx b hbm) (le_of_not_lt hnlt)

lemma pairwise_sortByDateDesc (l : List HistRow) :
    (sortByDateDesc l).Pairwise dateGE := by
  induction l with
  | nil => simp [sortByDateDesc]
  | cons x xs ih => exact pairwise_insortDateDesc x _ ih

lemma length_insortDateDesc (h : HistRow) (l : List HistRow) :
    (insortDateDesc h l).length = l.length + 1 := by
  induction l with
  | nil => rfl
  | cons x xs ih =>
      simp only [insortDateDesc]
      split <;> simp [ih]

lemma length_sortByDateDesc (l : List HistRow) :
    (sortByDateDesc l).length = l.length := by
  induction l with
  | nil => rfl
  | cons x xs ih => simp [sortByDateDesc, length_insortDateDesc, ih]

/-- The head of the date-sorted list is a member of the original list and
carries a maximal recording date. -/
lemma sortByDateDesc_head_max (l : List HistRow) (x : HistRow) (xs : List HistRow)
    (h : sortByDateDesc l = x :: xs) :
    x ∈ l ∧ ∀ a ∈ l, a.dateAdded ≤ x.dateAdded := by
  have hx : x ∈ sortByDateDesc l := by
    rw [h]
    exact List.mem_cons_self x xs
  refine ⟨(mem_sortByDateDesc x l).mp hx, ?_⟩
  intro a ha
  have ha' : a ∈ sortByDateDesc l := (mem_sortByDateDesc a l).mpr ha
  rw [h] at ha'
  rcases List.mem_cons.mp ha' with rfl | haxs
  · exact le_refl _
  · have hp := pairwise_sortByDateDesc l
    rw [h] at hp
    exact (List.pairwise_cons.mp hp).1 a haxs

/-! ## C1: previous rating and serialized prior-ratings list -/

/-- Claim C1: for every record the merge engine processes, the snapshot row
written to Latest Risks stores as `"Last Rating"` the most recent rating
previously recorded in History for the same (project, risk id) identity -
the rating of a matching entry whose recording date is maximal among
matching entries - or `-1` when the identity has no matching history; and
the same snapshot row stores the serialization of the full ordered list of
prior ratings, most-recent-first (the date-descending-sorted matching
ratings). -/
theorem c1_prev_rating (D : Int) (db : DB) (acc : List HistRow) (n : Nat)
    (di : RawRow) (row : HistRow) (h : normalizeRow D di = Except.ok row) :
    (processRow D (db, acc, n) di).1.latest
      = db.latest ++ [snapOf row (prevRating db row.project row.riskId)
          (pyReprIntList (priorRatings db row.project row.riskId))]
    ∧ (db.history.filter (matchKey row.project row.riskId) = []
        → prevRating db row.project row.riskId = -1)
    ∧ (∀ e0 ∈ db.history, matchKey row.project row.riskId e0 = true →
        ∃ e ∈ db.history, matchKey row.project row.riskId e = true
          ∧ prevRating db row.project row.riskId = e.rating
          ∧ ∀ f ∈ db.history, matchKey row.project row.riskId f = true
              → f.dateAdded ≤ e.dateAdded)
    ∧ priorRatings db row.project row.riskId
        = (sortByDateDesc (db.history.filter (matchKey row.project row.riskId))).map
            (fun e => e.rating)
    ∧ (sortByDateDesc (db.history.filter (matchKey row.project row.riskId))).Pairwise
        dateGE := by
  refine ⟨by simp [processRow, h], ?_, ?_, rfl, pairwise_sortByDateDesc _⟩
  · intro hfil
    simp [prevRating, priorRatings, hfil, sortByDateDesc]
  · intro e0 he0 hm
    have hne : db.history.filter (matchKey row.project row.riskId) ≠ [] :=
      List.ne_nil_of_mem (List.mem_filter.mpr ⟨he0, hm⟩)
    cases hs : sortByDateDesc (db.history.filter (matchKey row.project row.riskId)) with
    | nil =>
        have hlen := length_sortByDateDesc (db.history.filter (matchKey row.project row.riskId))
        rw [hs] at hlen
        simp only [List.length_nil] at hlen
        exact absurd (List.length_eq_zero.mp hlen.symm) hne
    | cons x xs =>
        obtain ⟨hxmem, hxmax⟩ := sortByDateDesc_head_max _ x xs hs
        have hxin := List.mem_filter.mp hxmem
        refine ⟨x, hxin.1, hxin.2, ?_, ?_⟩
        · simp [prevRating, priorRatings, hs]
        · intro f hf hmf
          exact hxmax f (List.mem_filter.mpr ⟨hf, hmf⟩)

/-- Database holding one old matching entry for identity ("ABC", 7). -/
def c1db : DB := { history := [histEntry (-30) "ABC" 7 5], latest := [] }

/-- Witness for C1 at a concrete input: one prior entry with rating 5. -/
theorem c1_prev_rating_witness :
    normalizeRow 0 rowABC = Except.ok rowABCRec
    ∧ (processRow 0 (c1db, [], 0) rowABC).1.latest
        = c1db.latest ++ [snapOf rowABCRec (prevRating c1db "ABC" 7)
            (pyReprIntList (priorRatings c1db "ABC" 7))] :=
  ⟨by decide, (c1_prev_rating 0 c1db [] 0 rowABC rowABCRec (by decide)).1⟩

/-! ## Batch-level structure lemmas -/

lemma normRows_cons_err (D : Int) (di : RawRow) (rest : List RawRow) (e : PyErr)
    (h : normalizeRow D di = Except.error e) :
    normRows D (di :: rest) = normRows D rest := by
  simp [normRows, h]

lemma normRows_cons_ok (D : Int) (di : RawRow) (rest : List RawRow) (r : HistRow)
    (h : normalizeRow D di = Except.ok r) :
    normRows D (di :: rest) = r :: normRows D rest := by
  simp [normRows, h]

/-- During the per-row loop of one file, the history table never changes and
`insert_data` accumulates exactly the normalized rows in order. -/
lemma foldl_processRow_spec (D : Int) (rows : List RawRow) (st : RunSt) :
    (rows.foldl (processRow D) st).1.history = st.1.history
    ∧ (rows.foldl (processRow D) st).2.1 = st.2.1 ++ normRows D rows := by
  induction rows generalizing st with
  | nil => simp [normRows]
  | cons di rest ih =>
      rw [List.foldl_cons]
      obtain ⟨ih1, ih2⟩ := ih (processRow D st di)
      cases hn : normalizeRow D di with
      | error e =>
          refine ⟨?_, ?_⟩
          · rw [ih1]
            simp [processRow, hn]
          · rw [ih2, normRows_cons_err D di rest e hn]
            simp [processRow, hn]
      | ok r =>
          refine ⟨?_, ?_⟩
          · rw [ih1]
            simp [processRow, hn]
          · rw [ih2, normRows_cons_ok D di rest r hn]
            simp [processRow, hn]

/-- During the per-row loop, the Latest-Risks identity column accumulates
exactly the normalized rows' identities in order. -/
lemma foldl_processRow_latest (D : Int) (rows : List RawRow) (st : RunSt) :
    (rows.foldl (processRow D) st).1.latest.map snapKey
      = st.1.latest.map snapKey ++ (normRows D rows).map rowKey := by
  induction rows generalizing st with
  | nil => simp [normRows]
  | cons di rest ih =>
      rw [List.foldl_cons, ih (processRow D st di)]
      cases hn : normalizeRow D di with
      | error e =>
          rw [normRows_cons_err D di rest e hn]
          simp [processRow, hn]
      | ok r =>
          rw [normRows_cons_ok D di rest r hn]
          simp [processRow, hn, snapKey, rowKey, snapOf]

lemma processFile_history (D : Int) (db : DB) (rows : List RawRow) :
    (processFile D db rows).history = db.history ++ normRows D rows := by
  obtain ⟨h1, h2⟩ := foldl_processRow_spec D rows (db, [], 0)
  simp only [processFile]
  rw [h1, h2]
  simp

lemma processFile_latest (D : Int) (db : DB) (rows : List RawRow) :
    (processFile D db rows).latest.map snapKey
      = db.latest.map snapKey ++ (normRows D rows).map rowKey := by
  have h := foldl_processRow_latest D rows (db, [], 0)
  simpa [processFile] using h

lemma runBatch_history (D : Int) (files : List (List RawRow)) (db : DB) :
    (runBatch D files db).history = (purgeDB D db).history ++ normFiles D files := by
  suffices h : ∀ s : DB, (files.foldl (processFile D) s).history
      = s.history ++ normFiles D files by
    exact h (purgeDB D db)
  intro s
  induction files generalizing s with
  | nil => simp [normFiles]
  | cons rows rest ih =>
      rw [List.foldl_cons, normFiles, ih (processFile D s rows), processFile_history,
        List.append_assoc]

lemma runBatch_latest_keys (D : Int) (files : List (List RawRow)) (db : DB) :
    (runBatch D files db).latest.map snapKey = (normFiles D files).map rowKey := by
  suffices h : ∀ s : DB, (files.foldl (processFile D) s).latest.map snapKey
      = s.latest.map snapKey ++ (normFiles D files).map rowKey by
    have h2 := h (purgeDB D db)
    simpa [purgeDB, runBatch] using h2
  intro s
  induction files generalizing s with
  | nil => simp [normFiles]
  | cons rows rest ih =>
      rw [List.foldl_cons, normFiles, ih (processFile D s rows), processFile_latest]
      simp [List.append_assoc]

/-- Every normalized row of a run carries the run's reference date. -/
lemma normRows_dateAdded (D : Int) (rows : List RawRow) :
    ∀ r ∈ normRows D rows, r.dateAdded = D := by
  intro r hr
  simp only [normRows, List.mem_filterMap] at hr
  obtain ⟨di, -, hdi⟩ := hr
  cases hn : normalizeRow D di with
  | error e => rw [hn] at hdi; exact Option.noConfusion hdi
  | ok r' =>
      rw [hn] at hdi
      injection hdi with h2
      subst h2
      exact (normalizeRow_ok_build D di r' hn).1

lemma normFiles_dateAdded (D : Int) (files : List (List RawRow)) :
    ∀ r ∈ normFiles D files, r.dateAdded = D := by
  induction files with
  | nil => simp [normFiles]
  | cons rows rest ih =>
      intro r hr
      rcases List.mem_append.mp (by simpa [normFiles] using hr) with h | h
      · exact normRows_dateAdded D rows r h
      · exact ih r h

/-! ## C6: purge window -/

/-- Claim C6: at the start of a run with reference date `D`, the purge
retains a history entry exactly when its recorded date is strictly older
than `D - 14` (i.e. it deletes exactly the entries recorded at most 14 days
before `D`, boundary included: an entry dated `D - 10` is deleted, one
dated `D - 20` survives the entire run), and it deletes every Latest-Risks
entry unconditionally; history entries older than the window are left
unchanged by the whole run (the run only ever appends entries dated `D`). -/
theorem c6_purge_window (D : Int) (files : List (List RawRow)) (db : DB) :
    (∀ e ∈ db.history, (e ∈ (purgeDB D db).history ↔ e.dateAdded < D - 14))
    ∧ (purgeDB D db).latest = []
    ∧ (∀ e ∈ db.history, e.dateAdded = D - 10 → e ∉ (purgeDB D db).history)
    ∧ (∀ e ∈ db.history, e.dateAdded = D - 20 → e ∈ (runBatch D files db).history)
    ∧ (runBatch D files db).history.filter (fun e => decide (e.dateAdded < D - 14))
        = db.history.filter (fun e => decide (e.dateAdded < D - 14)) := by
  refine ⟨?_, rfl, ?_, ?_, ?_⟩
  · intro e he
    simp [purgeDB, List.mem_filter, he]
  · intro e he hd
    simp only [purgeDB, List.mem_filter]
    intro hc
    have := of_decide_eq_true hc.2
    omega
  · intro e he hd
    rw [runBatch_history]
    apply List.mem_append_left
    apply List.mem_filter.mpr
    refine ⟨he, decide_eq_true ?_⟩
    omega
  · rw [runBatch_history, List.filter_append]
    have hnil : (normFiles D files).filter (fun e => decide (e.dateAdded < D - 14)) = [] := by
      apply List.filter_eq_nil_iff.mpr
      intro a ha
      have hd := normFiles_dateAdded D files a ha
      simp only [hd, decide_eq_true_eq]
      omega
    have hself : (purgeDB D db).history.filter (fun e => decide (e.dateAdded < D - 14))
        = (purgeDB D db).history := by
      apply List.filter_eq_self.mpr
      intro a ha
      exact (List.mem_filter.mp ha).2
    rw [hnil, hself, List.append_nil]
    rfl

/-- Database holding one entry dated -10 and one dated -20 (reference 0). -/
def c6db : DB :=
  { history := [histEntry (-10) "XYZ" 1 4, histEntry (-20) "XYZ" 2 5], latest := [] }

/-- Witness for C6 at concrete inputs: with reference date 0 and no input
files, the entry dated -10 is purged, the entry dated -20 is still in
history after the whole run, and Latest Risks is emptied. -/
theorem c6_purge_window_witness :
    histEntry (-10) "XYZ" 1 4 ∉ (purgeDB 0 c6db).history
    ∧ histEntry (-20) "XYZ" 2 5 ∈ (runBatch 0 [] c6db).history
    ∧ (purgeDB 0 c6db).latest = [] :=
  ⟨(c6_purge_window 0 [] c6db).2.2.1 (histEntry (-10) "XYZ" 1 4) (by simp [c6db])
      (by decide),
    (c6_purge_window 0 [] c6db).2.2.2.1 (histEntry (-20) "XYZ" 2 5) (by simp [c6db])
      (by decide),
    (c6_purge_window 0 [] c6db).2.1⟩

/-! ## C9: idempotence of a re-run with the same reference date -/

/-- Purging right after processing a file undoes the file's history append
(all its entries are dated `D`, inside the purge window) and empties the
snapshot table, restoring the pre-file purged state. -/
lemma purge_processFile (D : Int) (db : DB) (rows : List RawRow) :
    purgeDB D (processFile D db rows) = purgeDB D db := by
  simp only [purgeDB, processFile_history, List.filter_append, DB.mk.injEq, and_true]
  have hnil : (normRows D rows).filter (fun e => decide (e.dateAdded < D - 14)) = [] := by
    apply List.filter_eq_nil_iff.mpr
    intro a ha
    have hd := normRows_dateAdded D rows a ha
    simp only [hd, decide_eq_true_eq]
    omega
  rw [hnil, List.append_nil]

lemma purge_foldl (D : Int) (files : List (List RawRow)) (s : DB) :
    purgeDB D (files.foldl (processFile D) s) = purgeDB D s := by
  induction files generalizing s with
  | nil => rfl
  | cons rows rest ih =>
      rw [List.foldl_cons, ih (processFile D s rows), purge_processFile]

lemma purge_purge (D : Int) (db : DB) : purgeDB D (purgeDB D db) = purgeDB D db := by
  simp only [purgeDB, DB.mk.injEq, and_true]
  apply List.filter_eq_self.mpr
  intro a ha
  exact (List.mem_filter.mp ha).2

/-- Claim C9: running the batch twice in succession with the same reference
date and the same input files yields the same Latest-Risks content as
running it once. The proviso of the claim - that the purge window covers
the first run's entries - holds automatically for an identical reference
date, since the first run writes only entries dated `D` and the purge
deletes everything dated `D - 14` or later; indeed the whole database state
is identical after the second run. -/
theorem c9_idempotent (D : Int) (files : List (List RawRow)) (db : DB) :
    (runBatch D files (runBatch D files db)).latest = (runBatch D files db).latest := by
  have hp : purgeDB D (runBatch D files db) = purgeDB D db := by
    have h1 : purgeDB D (runBatch D files db) = purgeDB D (purgeDB D db) :=
      purge_foldl D files (purgeDB D db)
    rw [h1, purge_purge]
  have h : runBatch D files (runBatch D files db) = runBatch D files db := by
    show files.foldl (processFile D) (purgeDB D (runBatch D files db))
      = runBatch D files db
    rw [hp]
    rfl
  rw [h]

/-! ## C7: one snapshot entry per identity -/

/-- Claim C7 counterexample: the snapshot write is a plain insert, not an
upsert - a run in which the identity ("ABC", 7) appears in two input files
ends with two Latest-Risks entries for that identity, so "exactly one entry
per risk identity" fails when an identity repeats within a run. -/
theorem c7_counterexample :
    (runBatch 0 [[rowABC], [rowABC]] dbEmpty).latest.map snapKey
      = [("ABC", 7), ("ABC", 7)]
    ∧ ¬ ((runBatch 0 [[rowABC], [rowABC]] dbEmpty).latest.map snapKey).Nodup := by
  refine ⟨by decide, by decide⟩

/-- Claim C7 (amended): after a run, Latest Risks contains exactly one
entry per successfully normalized input row, in processing order (the
per-record write is a plain insert into a table that was emptied at the
start of the run); consequently there is exactly one entry per risk
identity precisely when the run's normalized rows have pairwise-distinct
identities - not when an identity repeats within the run. -/
theorem c7_snapshot_rows (D : Int) (files : List (List RawRow)) (db : DB)
    (hnd : ((normFiles D files).map rowKey).Nodup) :
    (runBatch D files db).latest.map snapKey = (normFiles D files).map rowKey
    ∧ ((runBatch D files db).latest.map snapKey).Nodup := by
  have h := runBatch_latest_keys D files db
  exact ⟨h, h ▸ hnd⟩

/-- Witness for the amended C7: a run with a single normalized row. -/
theorem c7_snapshot_rows_witness :
    (runBatch 0 [[rowABC]] dbEmpty).latest.map snapKey
        = (normFiles 0 [[rowABC]]).map rowKey
    ∧ ((runBatch 0 [[rowABC]] dbEmpty).latest.map snapKey).Nodup :=
  c7_snapshot_rows 0 [[rowABC]] dbEmpty (by decide)

/-! ## C2: within-run visibility of history inserts -/

lemma purgeDB_latest (D : Int) (db : DB) : (purgeDB D db).latest = [] := rfl

/-- Claim C2 counterexample: the history append is issued once per file,
after the file's row loop, so when the same identity ("ABC", 7, rating 3)
appears twice in the same file - the same `executemany` batch - the second
occurrence's lookup does NOT see the first: both snapshot rows carry
previous rating `-1`, not 3. -/
theorem c2_counterexample :
    (runBatch 0 [[rowABC, rowABC]] dbEmpty).latest.map snapKey
      = [("ABC", 7), ("ABC", 7)]
    ∧ (runBatch 0 [[rowABC, rowABC]] dbEmpty).latest.map (fun s => s.rating) = [3, 3]
    ∧ (runBatch 0 [[rowABC, rowABC]] dbEmpty).latest.map (fun s => s.lastRating)
      = [-1, -1] := by
  refine ⟨by decide, by decide, by decide⟩

/-- Claim C2 (amended): history lookups observe the inserts of files
processed earlier in the same run, but not those of earlier rows of the
same file, because the history append is deferred to end-of-file. For an
identity with no prior history: if its two occurrences are in two different
files, the second occurrence's previous rating is the first occurrence's
rating; if they are in the same file, the second occurrence's previous
rating is `-1`, exactly as if the first occurrence were absent. -/
theorem c2_cross_file_visibility (D : Int) (db : DB) (di1 di2 : RawRow)
    (r1 r2 : HistRow)
    (h1 : normalizeRow D di1 = Except.ok r1) (h2 : normalizeRow D di2 = Except.ok r2)
    (hp : r2.project = r1.project) (hr : r2.riskId = r1.riskId)
    (hnone : ∀ e ∈ db.history, matchKey r1.project r1.riskId e = false) :
    (runBatch D [[di1], [di2]] db).latest.map (fun s => s.lastRating)
      = [-1, r1.rating]
    ∧ (runBatch D [[di1, di2]] db).latest.map (fun s => s.lastRating)
      = [-1, -1] := by
  have hfil : (purgeDB D db).history.filter (matchKey r1.project r1.riskId) = [] := by
    apply List.filter_eq_nil_iff.mpr
    intro e he
    have he' : e ∈ db.history := by
      simp only [purgeDB] at he
      exact (List.mem_filter.mp he).1
    simp [hnone e he']
  have hfilr2 : (purgeDB D db).history.filter (matchKey r2.project r2.riskId) = [] := by
    rw [hp, hr]
    exact hfil
  have hA : processFile D (purgeDB D db) [di1]
      = { history := (purgeDB D db).history ++ [r1]
          latest := [snapOf r1 (-1) (pyReprIntList [])] } := by
    simp [processFile, processRow, h1, prevRating, priorRatings, hfil, sortByDateDesc,
      purgeDB_latest]
  have hfil2 : ((purgeDB D db).history ++ [r1]).filter (matchKey r2.project r2.riskId)
      = [r1] := by
    rw [List.filter_append, hp, hr, hfil]
    simp [matchKey]
  have hB : (processFile D
        (DB.mk ((purgeDB D db).history ++ [r1]) [snapOf r1 (-1) (pyReprIntList [])])
        [di2]).latest.map (fun s => s.lastRating)
      = [-1, r1.rating] := by
    simp [processFile, processRow, h2, prevRating, priorRatings, hfil2, sortByDateDesc,
      insortDateDesc, snapOf]
  constructor
  · have hrun : runBatch D [[di1], [di2]] db
        = processFile D (processFile D (purgeDB D db) [di1]) [di2] := rfl
    rw [hrun, hA]
    exact hB
  · have hrun : runBatch D [[di1, di2]] db
        = processFile D (purgeDB D db) [di1, di2] := rfl
    rw [hrun]
    simp [processFile, processRow, h1, h2, prevRating, priorRatings, hfil, hfilr2,
      sortByDateDesc, purgeDB_latest, snapOf]

/-- Witness for the amended C2 at concrete inputs: identity ("ABC", 7)
occurring twice, once per file versus twice in one file. -/
theorem c2_cross_file_visibility_witness :
    (runBatch 0 [[rowABC], [rowABC]] dbEmpty).latest.map (fun s => s.lastRating)
      = [-1, rowABCRec.rating]
    ∧ (runBatch 0 [[rowABC, rowABC]] dbEmpty).latest.map (fun s => s.lastRating)
      = [-1, -1] :=
  c2_cross_file_visibility 0 dbEmpty rowABC rowABC rowABCRec rowABCRec (by decide)
    (by decide) rfl rfl (by simp [dbEmpty])
